import Mathlib

/-!
x-tracker: change-detection and event-recording pipeline, shallow embedding.

This file embeds the persistent-store operations (`internal/db/db.go`), the
pagination loop of the upstream client (`internal/api/client.go`), the
per-account reconciliation step of the orchestrator
(`internal/ui/model.go`, `CheckAccounts` / `handleAddAccount`) and the
notification dispatcher (`internal/webhook`), and proves the spec's claims
about them.

Conventions:
* SQLite rows become Lean lists; the `following` table (primary key
  `(watched_account_id, followed_user_id)`) is a list of pairs, the
  `follow_events` table an append-only list of `FollowEvent`s.
* Go `int64` database ids become `Int`; upstream user ids are `String`s.
* `time.Now()` becomes an explicit `now : Nat` tick passed by the caller.
* Each Go function that opens its own SQL transaction becomes one total
  Lean function from store state to store state (the committed effect);
  failure injection between two such transactions is modelled by stopping
  after the first function (the first transaction has committed, rollback
  undoes only the second).
* Fallible collaborators (the upstream fetch, the two store writes inside
  the reconciliation loop, the channel sends) are driven by explicit
  oracles so that the error-handling claims can quantify over failures.
-/

/-- Event kind column of `follow_events` (`event_type IN ('follow','unfollow')`). -/
inductive EventType where
  | follow
  | unfollow
deriving DecidableEq, Repr

/-- A row of `follow_events` (the auto-increment id is the list position). -/
structure FollowEvent where
  watchedAccountID : Int
  userID : String
  eventType : EventType
  detectedAt : Nat
deriving DecidableEq, Repr

/-- A row of `watched_accounts`. -/
structure WatchedAccount where
  id : Int
  username : String
  userID : String
deriving DecidableEq, Repr

/-- The persistent store: the three SQLite tables of `db.go`'s schema. -/
structure StoreState where
  accounts : List WatchedAccount
  following : List (Int × String)
  events : List FollowEvent
deriving DecidableEq, Repr

/-- Embeds `Database.GetCurrentFollowings`: the `followed_user_id`s of the
`following` rows whose `watched_account_id` matches. -/
def GetCurrentFollowings (s : StoreState) (watchedAccountID : Int) : List String :=
  (s.following.filter (fun p => p.1 = watchedAccountID)).map (fun p => p.2)

/-- Embeds `Database.StoreFollowEvents`: one transaction appending a `follow`
event per id in `follows` and an `unfollow` event per id in `unfollows`,
all stamped with the same `now`. -/
def StoreFollowEvents (s : StoreState) (watchedAccountID : Int)
    (follows unfollows : List String) (now : Nat) : StoreState :=
  { s with events := s.events
      ++ follows.map (fun u => ⟨watchedAccountID, u, EventType.follow, now⟩)
      ++ unfollows.map (fun u => ⟨watchedAccountID, u, EventType.unfollow, now⟩) }

/-- The insert half of `Database.StoreFollowings`: for each id of
`followingIDs` (in order), skip it when it was already in
`currentFollowings`, otherwise `INSERT OR IGNORE` the row
`(watchedAccountID, id)`. -/
def insertNewFollows (watchedAccountID : Int) (currentFollowings : List String)
    (followingIDs : List String) (rows : List (Int × String)) : List (Int × String) :=
  followingIDs.foldl (fun acc id =>
    if id ∈ currentFollowings then acc
    else if (watchedAccountID, id) ∈ acc then acc
    else acc ++ [(watchedAccountID, id)]) rows

/-- Embeds `Database.StoreFollowings`: one transaction that reads the account's
current followings, deletes each current row whose id is not in
`followingIDs`, then inserts the genuinely new ids. -/
def StoreFollowings (s : StoreState) (watchedAccountID : Int)
    (followingIDs : List String) : StoreState :=
  let currentFollowings := GetCurrentFollowings s watchedAccountID
  let afterDeletes := s.following.filter (fun p =>
    ¬(p.1 = watchedAccountID ∧ p.2 ∉ followingIDs))
  let afterInserts :=
    insertNewFollows watchedAccountID currentFollowings followingIDs afterDeletes
  { s with following := afterInserts }

/-- The change-detection step shared verbatim by
`Database.ProcessFollowingChanges` and `Model.CheckAccounts`: new follows
are the fetched ids absent from the stored snapshot, unfollows the stored
ids absent from the fetched list. -/
def diffFollowings (currentFollowings newFollowingIDs : List String) :
    List String × List String :=
  (newFollowingIDs.filter (fun id => id ∉ currentFollowings),
   currentFollowings.filter (fun id => id ∉ newFollowingIDs))

/-- Embeds `Database.ProcessFollowingChanges`: diff the fetched list against the
stored snapshot; when the delta is non-empty, first commit the event
transaction (`StoreFollowEvents`), then commit the snapshot transaction
(`StoreFollowings`). -/
def ProcessFollowingChanges (s : StoreState) (accountID : Int)
    (newFollowingIDs : List String) (now : Nat) : StoreState :=
  let currentFollowings := GetCurrentFollowings s accountID
  let d := diffFollowings currentFollowings newFollowingIDs
  if d.1.length > 0 ∨ d.2.length > 0 then
    StoreFollowings (StoreFollowEvents s accountID d.1 d.2 now) accountID newFollowingIDs
  else s

/-- Embeds `Database.ProcessFollowingChanges` when a failure is injected between
the two transactions: `StoreFollowEvents` has already committed its own
transaction, the failing `StoreFollowings` transaction is rolled back, so
the run ends with the events recorded and the snapshot untouched. -/
def ProcessFollowingChangesFailAfterEvents (s : StoreState) (accountID : Int)
    (newFollowingIDs : List String) (now : Nat) : StoreState :=
  let currentFollowings := GetCurrentFollowings s accountID
  let d := diffFollowings currentFollowings newFollowingIDs
  if d.1.length > 0 ∨ d.2.length > 0 then
    StoreFollowEvents s accountID d.1 d.2 now
  else s

/-- Store-level errors of the spec's taxonomy. -/
inductive StoreError where
  | notFound
  | duplicateUsername
deriving DecidableEq, Repr

/-- Embeds `Database.RemoveWatchedAccount`: one transaction deleting the
account's `following` rows and then its `watched_accounts` row. The Go
function performs no existence check and reaches `tx.Commit()` on every
input, so the embedding always returns `.ok`. -/
def RemoveWatchedAccount (s : StoreState) (id : Int) :
    Except StoreError StoreState :=
  .ok { s with
    following := s.following.filter (fun p => ¬p.1 = id),
    accounts := s.accounts.filter (fun a => ¬a.id = id) }

/-- SQLite's `INTEGER PRIMARY KEY` assignment used by
`AddWatchedAccount` / `LastInsertId`: one more than the largest id. -/
def nextAccountID (s : StoreState) : Int :=
  (s.accounts.foldl (fun m a => max m a.id) 0) + 1

/-- The store effect of `Model.handleAddAccount` after a successful user
lookup and followings fetch: insert the `watched_accounts` row
(`AddWatchedAccount`), then store the fetched ids with `StoreFollowings`.
No event write and no notification call occur on this path. -/
def handleAddAccountStore (s : StoreState) (username userID : String)
    (fetchedIDs : List String) : StoreState :=
  let newID := nextAccountID s
  let s1 := { s with accounts := s.accounts ++ [⟨newID, username, userID⟩] }
  StoreFollowings s1 newID fetchedIDs

/-- One upstream response of `GET /user/following-ids`
(`api.FollowingIDsResponse`, the fields the pagination loop reads). -/
structure FollowingIDsResponse where
  ids : List String
  nextCursor : Int
  nextCursorStr : String
deriving DecidableEq, Repr

/-- The loop body of `Client.GetFollowingIDs`: append the page's ids to
the accumulator, stop when the page reports `NextCursor == 0`, otherwise
continue with the next page. The upstream is modelled as the sequence of
responses it would return; `none` means the loop would need a further
page the upstream never supplies. -/
def getFollowingIDsLoop : List String → List FollowingIDsResponse → Option (List String)
  | _, [] => none
  | allIDs, r :: rest =>
    let allIDs := allIDs ++ r.ids
    if r.nextCursor = 0 then some allIDs
    else getFollowingIDsLoop allIDs rest

/-- Embeds `Client.GetFollowingIDs`: run the pagination loop from an empty
accumulator and return all collected ids in one response. -/
def GetFollowingIDs (responses : List FollowingIDsResponse) : Option (List String) :=
  getFollowingIDsLoop [] responses

/-- The notification-related configuration read by `Model.CheckAccounts`:
whether a `NotificationManager` is present and the two directional
toggles of `config.Config`. -/
structure CheckConfig where
  hasNotifications : Bool
  enableFollowNotifications : Bool
  enableUnfollowNotifications : Bool
deriving DecidableEq, Repr

/-- One dispatched notification (`NotifyNewFollows` / `NotifyUnfollows`). -/
inductive Notification where
  | follow (accountID : Int) (ids : List String)
  | unfollow (accountID : Int) (ids : List String)
deriving DecidableEq, Repr

/-- One iteration of the account loop in `Model.CheckAccounts`, threading
the store state and the notifications dispatched so far. `fetch` models
`api.GetFollowingIDs` (`none` is a fetch error, upon which the loop
`continue`s); `evFail` and `folFail` inject a failure of the
`StoreFollowEvents` / `StoreFollowings` transaction for the given account
id (the failing transaction rolls back and the loop `continue`s; an
earlier committed transaction stays). -/
def checkAccount (cfg : CheckConfig) (fetch : String → Option (List String))
    (evFail folFail : Int → Bool) (now : Nat)
    (sn : StoreState × List Notification) (account : WatchedAccount) :
    StoreState × List Notification :=
  match fetch account.userID with
  | none => sn
  | some ids =>
    let s := sn.1
    let currentFollowings := GetCurrentFollowings s account.id
    let d := diffFollowings currentFollowings ids
    if d.1.length > 0 ∨ d.2.length > 0 then
      if evFail account.id then sn
      else
        let s1 := StoreFollowEvents s account.id d.1 d.2 now
        if folFail account.id then (s1, sn.2)
        else
          let s2 := StoreFollowings s1 account.id ids
          let n1 := if cfg.hasNotifications ∧ cfg.enableFollowNotifications ∧ d.1.length > 0
            then sn.2 ++ [Notification.follow account.id d.1] else sn.2
          let n2 := if cfg.hasNotifications ∧ cfg.enableUnfollowNotifications ∧ d.2.length > 0
            then n1 ++ [Notification.unfollow account.id d.2] else n1
          (s2, n2)
    else sn

/-- The notifications one iteration of `Model.CheckAccounts` dispatches
for an account with delta `d`: a follow notification gated by the
manager's presence and the follow toggle, then an unfollow notification
gated by the manager's presence and the unfollow toggle. -/
def checkNotifs (cfg : CheckConfig) (a : Int) (d : List String × List String) :
    List Notification :=
  (if cfg.hasNotifications ∧ cfg.enableFollowNotifications ∧ d.1.length > 0
    then [Notification.follow a d.1] else [])
  ++ (if cfg.hasNotifications ∧ cfg.enableUnfollowNotifications ∧ d.2.length > 0
    then [Notification.unfollow a d.2] else [])

/-- Embeds `Model.CheckAccounts`: iterate the per-account step over the watched
accounts listed at cycle start, collecting dispatched notifications. -/
def CheckAccounts (cfg : CheckConfig) (fetch : String → Option (List String))
    (evFail folFail : Int → Bool) (now : Nat)
    (s : StoreState) (accounts : List WatchedAccount) :
    StoreState × List Notification :=
  accounts.foldl (checkAccount cfg fetch evFail folFail now) (s, [])

/-- The two notification channels. -/
inductive Channel where
  | discord
  | telegram
deriving DecidableEq, Repr

/-- Embeds `webhook.NotificationManager`: the enable flags from configuration
and whether each channel was actually constructed (`m.discord != nil`,
`m.telegram != nil`). -/
structure NotificationManager where
  enableDiscord : Bool
  hasDiscord : Bool
  enableTelegram : Bool
  hasTelegram : Bool
deriving DecidableEq, Repr

/-- Embeds `NotificationManager.NotifyNewFollows`: attempt Discord when enabled
and constructed, then attempt Telegram when enabled and constructed.
`sendOk` tells whether each attempted send succeeds; a `false` outcome is
only logged — the Go method has no error return value and never skips the
second block because of the first. The result is the list of attempts
made, paired with their outcomes. -/
def NotifyNewFollows (m : NotificationManager) (sendOk : Channel → Bool) :
    List (Channel × Bool) :=
  (if m.enableDiscord ∧ m.hasDiscord
    then [(Channel.discord, sendOk Channel.discord)] else [])
  ++ (if m.enableTelegram ∧ m.hasTelegram
    then [(Channel.telegram, sendOk Channel.telegram)] else [])

/-- Embeds `NotificationManager.NotifyUnfollows`: identical control flow
to the follow dispatch — Discord attempted when enabled and constructed,
then Telegram, failures only logged, no error returned. -/
def NotifyUnfollows (m : NotificationManager) (sendOk : Channel → Bool) :
    List (Channel × Bool) :=
  (if m.enableDiscord ∧ m.hasDiscord
    then [(Channel.discord, sendOk Channel.discord)] else [])
  ++ (if m.enableTelegram ∧ m.hasTelegram
    then [(Channel.telegram, sendOk Channel.telegram)] else [])

/-- Concrete fixture: a single watched account. -/
def acct1 : WatchedAccount := ⟨1, "alice", "42"⟩

/-- Concrete fixture: account 1 watched, empty snapshot, empty log. -/
def sampleStore : StoreState := ⟨[acct1], [], []⟩

/-- Concrete fixture: account 1 watched with snapshot already containing
the id that the fetch will return. -/
def seededStore : StoreState := ⟨[acct1], [(1, "u1")], []⟩

/-- Concrete fixture: both notification toggles on, manager present. -/
def allOnConfig : CheckConfig := ⟨true, true, true⟩

/-- Concrete fixture: no injected storage failures. -/
def noFailure : Int → Bool := fun _ => false

/-- Concrete fixture: a fetch that returns one id for user 42. -/
def sampleFetch : String → Option (List String) :=
  fun u => if u = "42" then some ["u1"] else none

/-- Concrete fixture: first watched account of the isolation scenario. -/
def xAcct : WatchedAccount := ⟨1, "xavier", "10"⟩

/-- Concrete fixture: second watched account of the isolation scenario. -/
def yAcct : WatchedAccount := ⟨2, "yvonne", "20"⟩

/-- Concrete fixture: the two-account store of the isolation scenario. -/
def twoAccountStore : StoreState := ⟨[xAcct, yAcct], [], []⟩

/-- Concrete fixture: a fetch that fails for user 10 and succeeds for
user 20. -/
def isolationFetch : String → Option (List String) :=
  fun u => if u = "20" then some ["u1"] else none

/-- Concrete fixture: two accounts, each with one following row. -/
def frameStore : StoreState :=
  ⟨[⟨1, "alice", "42"⟩, ⟨2, "bob", "7"⟩], [(1, "u1"), (2, "u2")], []⟩

section Lemmas

theorem mem_getCurrentFollowings {s : StoreState} {a : Int} {x : String} :
    x ∈ GetCurrentFollowings s a ↔ (a, x) ∈ s.following := by
  simp only [GetCurrentFollowings, List.mem_map, List.mem_filter, decide_eq_true_eq]
  constructor
  · rintro ⟨⟨u, v⟩, ⟨h, rfl⟩, rfl⟩
    exact h
  · intro h
    exact ⟨(a, x), ⟨h, rfl⟩, rfl⟩

theorem mem_insertNewFollows (a : Int) (cur ids : List String)
    (rows : List (Int × String)) (p : Int × String) :
    p ∈ insertNewFollows a cur ids rows ↔
      p ∈ rows ∨ (p.1 = a ∧ p.2 ∈ ids ∧ p.2 ∉ cur) := by
  induction ids generalizing rows with
  | nil => simp [insertNewFollows]
  | cons id ids ih =>
    have hstep : insertNewFollows a cur (id :: ids) rows
        = insertNewFollows a cur ids
            (if id ∈ cur then rows
             else if (a, id) ∈ rows then rows else rows ++ [(a, id)]) := rfl
    rw [hstep]
    by_cases hc : id ∈ cur
    · rw [if_pos hc, ih]
      constructor
      · rintro (h | ⟨h1, h2, h3⟩)
        · exact Or.inl h
        · exact Or.inr ⟨h1, List.mem_cons_of_mem _ h2, h3⟩
      · rintro (h | ⟨h1, h2, h3⟩)
        · exact Or.inl h
        · rcases List.mem_cons.mp h2 with h2 | h2
          · exact absurd (h2 ▸ hc) h3
          · exact Or.inr ⟨h1, h2, h3⟩
    · rw [if_neg hc]
      by_cases hr : (a, id) ∈ rows
      · rw [if_pos hr, ih]
        constructor
        · rintro (h | ⟨h1, h2, h3⟩)
          · exact Or.inl h
          · exact Or.inr ⟨h1, List.mem_cons_of_mem _ h2, h3⟩
        · rintro (h | ⟨h1, h2, h3⟩)
          · exact Or.inl h
          · rcases List.mem_cons.mp h2 with h2 | h2
            · refine Or.inl ?_
              have : p = (a, id) := Prod.ext h1 h2
              exact this ▸ hr
            · exact Or.inr ⟨h1, h2, h3⟩
      · rw [if_neg hr, ih]
        constructor
        · rintro (h | ⟨h1, h2, h3⟩)
          · rcases List.mem_append.mp h with h | h
            · exact Or.inl h
            · have : p = (a, id) := List.mem_singleton.mp h
              exact Or.inr ⟨by simp [this], by simp [this], by simp [this, hc]⟩
          · exact Or.inr ⟨h1, List.mem_cons_of_mem _ h2, h3⟩
        · rintro (h | ⟨h1, h2, h3⟩)
          · exact Or.inl (List.mem_append_left _ h)
          · rcases List.mem_cons.mp h2 with h2 | h2
            · have : p = (a, id) := Prod.ext h1 h2
              exact Or.inl (List.mem_append_right _ (this ▸ List.mem_singleton_self _))
            · exact Or.inr ⟨h1, h2, h3⟩

theorem mem_storeFollowings {s : StoreState} {a : Int} {ids : List String}
    {x : String} : x ∈ GetCurrentFollowings (StoreFollowings s a ids) a ↔ x ∈ ids := by
  rw [mem_getCurrentFollowings]
  show (a, x) ∈ insertNewFollows a _ ids _ ↔ _
  rw [mem_insertNewFollows]
  constructor
  · rintro (h | h)
    · have hkeep := (List.mem_filter.mp h).2
      simp only [decide_eq_true_eq] at hkeep
      by_contra hx
      exact hkeep ⟨by trivial, hx⟩
    · exact h.2.1
  · intro hx
    by_cases hcur : x ∈ GetCurrentFollowings s a
    · refine Or.inl (List.mem_filter.mpr ⟨mem_getCurrentFollowings.mp hcur, ?_⟩)
      simp only [decide_eq_true_eq]
      exact fun h => h.2 hx
    · exact Or.inr ⟨rfl, hx, hcur⟩

theorem storeFollowings_accounts (s : StoreState) (a : Int) (ids : List String) :
    (StoreFollowings s a ids).accounts = s.accounts := rfl

theorem storeFollowings_events (s : StoreState) (a : Int) (ids : List String) :
    (StoreFollowings s a ids).events = s.events := rfl

theorem storeFollowEvents_following (s : StoreState) (a : Int)
    (f u : List String) (now : Nat) :
    (StoreFollowEvents s a f u now).following = s.following := rfl

theorem storeFollowEvents_accounts (s : StoreState) (a : Int)
    (f u : List String) (now : Nat) :
    (StoreFollowEvents s a f u now).accounts = s.accounts := rfl

theorem filter_insertNewFollows_ne (a b : Int) (h : ¬b = a) (cur ids : List String)
    (rows : List (Int × String)) :
    (insertNewFollows a cur ids rows).filter (fun p => p.1 = b)
      = rows.filter (fun p => p.1 = b) := by
  induction ids generalizing rows with
  | nil => rfl
  | cons id ids ih =>
    have hstep : insertNewFollows a cur (id :: ids) rows
        = insertNewFollows a cur ids
            (if id ∈ cur then rows
             else if (a, id) ∈ rows then rows else rows ++ [(a, id)]) := rfl
    rw [hstep]
    by_cases hc : id ∈ cur
    · rw [if_pos hc, ih]
    · rw [if_neg hc]
      by_cases hr : (a, id) ∈ rows
      · rw [if_pos hr, ih]
      · rw [if_neg hr, ih, List.filter_append]
        have : ([(a, id)] : List (Int × String)).filter (fun p => p.1 = b) = [] := by
          simp only [List.filter_eq_nil_iff, List.mem_singleton, decide_eq_true_eq]
          rintro p rfl
          exact fun hab => h hab.symm
        rw [this, List.append_nil]

theorem getCurrentFollowings_storeFollowings_ne (s : StoreState) (a : Int)
    (ids : List String) (b : Int) (h : ¬b = a) :
    GetCurrentFollowings (StoreFollowings s a ids) b = GetCurrentFollowings s b := by
  show ((insertNewFollows a (GetCurrentFollowings s a) ids
      (s.following.filter _)).filter _).map _ = _
  rw [filter_insertNewFollows_ne a b h]
  show ((s.following.filter _).filter _).map _ = (s.following.filter _).map _
  rw [List.filter_filter]
  congr 1
  apply List.filter_congr
  intro x _
  by_cases hb : x.1 = b
  · simp [hb, h]
  · simp [hb]

theorem mem_diffFollowings_fst {cur l : List String} {x : String} :
    x ∈ (diffFollowings cur l).1 ↔ x ∈ l ∧ x ∉ cur := by
  simp [diffFollowings, List.mem_filter]

theorem mem_diffFollowings_snd {cur l : List String} {x : String} :
    x ∈ (diffFollowings cur l).2 ↔ x ∈ cur ∧ x ∉ l := by
  simp [diffFollowings, List.mem_filter]

theorem diffFollowings_self (l : List String) : diffFollowings l l = ([], []) := by
  simp [diffFollowings, List.filter_eq_nil_iff]

theorem diffFollowings_eq_nil_iff {cur l : List String} :
    diffFollowings cur l = ([], []) ↔ (∀ x, x ∈ cur ↔ x ∈ l) := by
  constructor
  · intro h x
    have h1 := congrArg Prod.fst h
    have h2 := congrArg Prod.snd h
    simp only [diffFollowings, List.filter_eq_nil_iff, decide_eq_true_eq,
      not_not] at h1 h2
    exact ⟨fun hx => h2 x hx, fun hx => h1 x hx⟩
  · intro h
    have h1 : (diffFollowings cur l).1 = [] := by
      simp only [diffFollowings, List.filter_eq_nil_iff, decide_eq_true_eq, not_not]
      exact fun x hx => (h x).mpr hx
    have h2 : (diffFollowings cur l).2 = [] := by
      simp only [diffFollowings, List.filter_eq_nil_iff, decide_eq_true_eq, not_not]
      exact fun x hx => (h x).mp hx
    exact Prod.ext h1 h2

theorem processFollowingChanges_eq_of_delta (s : StoreState) (a : Int)
    (ids : List String) (now : Nat)
    (h : (diffFollowings (GetCurrentFollowings s a) ids).1.length > 0
       ∨ (diffFollowings (GetCurrentFollowings s a) ids).2.length > 0) :
    ProcessFollowingChanges s a ids now
      = StoreFollowings (StoreFollowEvents s a
          (diffFollowings (GetCurrentFollowings s a) ids).1
          (diffFollowings (GetCurrentFollowings s a) ids).2 now) a ids := by
  unfold ProcessFollowingChanges
  rw [if_pos h]

theorem processFollowingChanges_noop (s : StoreState) (a : Int)
    (ids : List String) (now : Nat)
    (h : diffFollowings (GetCurrentFollowings s a) ids = ([], [])) :
    ProcessFollowingChanges s a ids now = s := by
  unfold ProcessFollowingChanges
  rw [if_neg]
  rw [h]
  simp

theorem mem_processFollowingChanges {s : StoreState} {a : Int}
    {ids : List String} {now : Nat} {x : String} :
    x ∈ GetCurrentFollowings (ProcessFollowingChanges s a ids now) a ↔ x ∈ ids := by
  by_cases h : (diffFollowings (GetCurrentFollowings s a) ids).1.length > 0
       ∨ (diffFollowings (GetCurrentFollowings s a) ids).2.length > 0
  · rw [processFollowingChanges_eq_of_delta s a ids now h]
    exact mem_storeFollowings
  · push_neg at h
    have h1 : (diffFollowings (GetCurrentFollowings s a) ids).1 = [] :=
      List.eq_nil_of_length_eq_zero (Nat.le_zero.mp h.1)
    have h2 : (diffFollowings (GetCurrentFollowings s a) ids).2 = [] :=
      List.eq_nil_of_length_eq_zero (Nat.le_zero.mp h.2)
    have hd : diffFollowings (GetCurrentFollowings s a) ids = ([], []) :=
      Prod.ext h1 h2
    rw [processFollowingChanges_noop s a ids now hd]
    exact diffFollowings_eq_nil_iff.mp hd x

theorem diffFollowings_after_process (s : StoreState) (a : Int)
    (ids : List String) (now : Nat) :
    diffFollowings (GetCurrentFollowings (ProcessFollowingChanges s a ids now) a)
      ids = ([], []) := by
  rw [diffFollowings_eq_nil_iff]
  intro x
  exact mem_processFollowingChanges

theorem processFollowingChanges_idem (s : StoreState) (a : Int)
    (ids : List String) (now now' : Nat) :
    ProcessFollowingChanges (ProcessFollowingChanges s a ids now) a ids now'
      = ProcessFollowingChanges s a ids now :=
  processFollowingChanges_noop _ a ids now' (diffFollowings_after_process s a ids now)

theorem getCurrentFollowings_congr {s t : StoreState}
    (h : s.following = t.following) (a : Int) :
    GetCurrentFollowings s a = GetCurrentFollowings t a := by
  unfold GetCurrentFollowings
  rw [h]

theorem storeFollowings_following_congr {s t : StoreState}
    (h : s.following = t.following) (a : Int) (ids : List String) :
    (StoreFollowings s a ids).following = (StoreFollowings t a ids).following := by
  show insertNewFollows a (GetCurrentFollowings s a) ids (s.following.filter _)
      = insertNewFollows a (GetCurrentFollowings t a) ids (t.following.filter _)
  rw [getCurrentFollowings_congr h, h]

theorem processFollowingChanges_following_congr {s t : StoreState}
    (h : s.following = t.following) (a : Int) (ids : List String) (now : Nat) :
    (ProcessFollowingChanges s a ids now).following
      = (ProcessFollowingChanges t a ids now).following := by
  unfold ProcessFollowingChanges
  rw [getCurrentFollowings_congr h]
  by_cases hd : (diffFollowings (GetCurrentFollowings t a) ids).1.length > 0
      ∨ (diffFollowings (GetCurrentFollowings t a) ids).2.length > 0
  · rw [if_pos hd, if_pos hd]
    exact storeFollowings_following_congr h a ids
  · rw [if_neg hd, if_neg hd]
    exact h

theorem checkAccount_success (cfg : CheckConfig) (fetch : String → Option (List String))
    (evFail folFail : Int → Bool) (now : Nat) (s : StoreState)
    (ns : List Notification) (Y : WatchedAccount) (L : List String)
    (hf : fetch Y.userID = some L)
    (hye : evFail Y.id = false) (hyf : folFail Y.id = false) :
    checkAccount cfg fetch evFail folFail now (s, ns) Y
      = (ProcessFollowingChanges s Y.id L now,
         ns ++ checkNotifs cfg Y.id (diffFollowings (GetCurrentFollowings s Y.id) L)) := by
  have he : ¬(evFail Y.id = true) := by simp [hye]
  have hfo : ¬(folFail Y.id = true) := by simp [hyf]
  simp only [checkAccount, hf]
  by_cases hd : (diffFollowings (GetCurrentFollowings s Y.id) L).1.length > 0
      ∨ (diffFollowings (GetCurrentFollowings s Y.id) L).2.length > 0
  · rw [if_pos hd, if_neg he, if_neg hfo,
      processFollowingChanges_eq_of_delta s Y.id L now hd]
    unfold checkNotifs
    by_cases h1 : cfg.hasNotifications = true ∧ cfg.enableFollowNotifications = true
        ∧ (diffFollowings (GetCurrentFollowings s Y.id) L).1.length > 0
    · by_cases h2 : cfg.hasNotifications = true ∧ cfg.enableUnfollowNotifications = true
          ∧ (diffFollowings (GetCurrentFollowings s Y.id) L).2.length > 0
      · rw [if_pos h1, if_pos h2, if_pos h1, if_pos h2]
        simp
      · rw [if_pos h1, if_neg h2, if_pos h1, if_neg h2]
        simp
    · by_cases h2 : cfg.hasNotifications = true ∧ cfg.enableUnfollowNotifications = true
          ∧ (diffFollowings (GetCurrentFollowings s Y.id) L).2.length > 0
      · rw [if_neg h1, if_pos h2, if_neg h1, if_pos h2]
        simp
      · rw [if_neg h1, if_neg h2, if_neg h1, if_neg h2]
        simp
  · rw [if_neg hd]
    push_neg at hd
    have hdnil : diffFollowings (GetCurrentFollowings s Y.id) L = ([], []) :=
      Prod.ext (List.eq_nil_of_length_eq_zero (Nat.le_zero.mp hd.1))
        (List.eq_nil_of_length_eq_zero (Nat.le_zero.mp hd.2))
    rw [processFollowingChanges_noop s Y.id L now hdnil, hdnil]
    simp [checkNotifs]

theorem checkAccount_fail (cfg : CheckConfig) (fetch : String → Option (List String))
    (evFail folFail : Int → Bool) (now : Nat)
    (sn : StoreState × List Notification) (X : WatchedAccount)
    (hx : fetch X.userID = none ∨ evFail X.id = true ∨ folFail X.id = true) :
    (checkAccount cfg fetch evFail folFail now sn X).1.following = sn.1.following ∧
    (checkAccount cfg fetch evFail folFail now sn X).2 = sn.2 := by
  unfold checkAccount
  cases hfx : fetch X.userID with
  | none => exact ⟨rfl, rfl⟩
  | some ids =>
    dsimp only
    by_cases hd : (diffFollowings (GetCurrentFollowings sn.1 X.id) ids).1.length > 0
        ∨ (diffFollowings (GetCurrentFollowings sn.1 X.id) ids).2.length > 0
    · rw [if_pos hd]
      by_cases he : evFail X.id = true
      · rw [if_pos he]
        exact ⟨rfl, rfl⟩
      · rw [if_neg he]
        have hfo : folFail X.id = true := by
          rcases hx with hx | hx | hx
          · rw [hfx] at hx
            cases hx
          · exact absurd hx he
          · exact hx
        rw [if_pos hfo]
        exact ⟨rfl, rfl⟩
    · rw [if_neg hd]
      exact ⟨rfl, rfl⟩

theorem getFollowingIDsLoop_spec (pre : List FollowingIDsResponse)
    (last : FollowingIDsResponse) (rest : List FollowingIDsResponse)
    (acc : List String)
    (h1 : ∀ r ∈ pre, ¬r.nextCursor = 0) (h2 : last.nextCursor = 0) :
    getFollowingIDsLoop acc (pre ++ last :: rest)
      = some (acc ++ ((pre ++ [last]).map (fun r => r.ids)).flatten) := by
  induction pre generalizing acc with
  | nil =>
    simp only [List.nil_append, getFollowingIDsLoop]
    rw [if_pos h2]
    simp
  | cons r pre ih =>
    have hr : ¬r.nextCursor = 0 := h1 r (List.mem_cons_self r pre)
    simp only [List.cons_append, getFollowingIDsLoop]
    rw [if_neg hr]
    rw [show pre.append (last :: rest) = pre ++ last :: rest from rfl]
    rw [ih (acc ++ r.ids) (fun x hx => h1 x (List.mem_cons_of_mem r hx))]
    simp

end Lemmas

/-- C1 is false on the code: `ProcessFollowingChanges` commits the event
write and the snapshot write as two separate transactions, so a failure
injected between them leaves a follow event recorded for account 1 while
`GetCurrentFollowings` still returns the prior (empty) snapshot — events
without the snapshot update, contradicting all-or-nothing. -/
theorem failAfterEvents_leaves_orphan_events :
    ¬(ProcessFollowingChangesFailAfterEvents sampleStore 1 ["u1"] 0).events
        = sampleStore.events
    ∧ GetCurrentFollowings
        (ProcessFollowingChangesFailAfterEvents sampleStore 1 ["u1"] 0) 1
      = GetCurrentFollowings sampleStore 1 := by
  decide

/-- C1 (amended): recording the events and rewriting the snapshot happen
in two separate transactions, each individually committed. For every
state and fetched list with a non-empty delta, a failure injected between
the two transactions leaves exactly the delta's events appended (so the
log has changed) while the `following` table is unchanged. -/
theorem eventWrite_snapshotWrite_separate_transactions
    (s : StoreState) (a : Int) (newIDs : List String) (now : Nat)
    (h : (diffFollowings (GetCurrentFollowings s a) newIDs).1.length > 0
       ∨ (diffFollowings (GetCurrentFollowings s a) newIDs).2.length > 0) :
    (ProcessFollowingChangesFailAfterEvents s a newIDs now).events
      = s.events
        ++ (diffFollowings (GetCurrentFollowings s a) newIDs).1.map
            (fun u => ⟨a, u, EventType.follow, now⟩)
        ++ (diffFollowings (GetCurrentFollowings s a) newIDs).2.map
            (fun u => ⟨a, u, EventType.unfollow, now⟩)
    ∧ ¬(ProcessFollowingChangesFailAfterEvents s a newIDs now).events = s.events
    ∧ (ProcessFollowingChangesFailAfterEvents s a newIDs now).following
        = s.following := by
  have heq : ProcessFollowingChangesFailAfterEvents s a newIDs now
      = StoreFollowEvents s a (diffFollowings (GetCurrentFollowings s a) newIDs).1
          (diffFollowings (GetCurrentFollowings s a) newIDs).2 now := by
    unfold ProcessFollowingChangesFailAfterEvents
    rw [if_pos h]
  refine ⟨by rw [heq]; rfl, ?_, by rw [heq]; rfl⟩
  rw [heq]
  intro hcontra
  have hlen := congrArg List.length hcontra
  simp only [StoreFollowEvents, List.length_append, List.length_map] at hlen
  rcases h with h | h <;> omega

/-- Witness for C1 (amended) at the concrete orphan-event input. -/
theorem eventWrite_snapshotWrite_separate_transactions_witness :
    ((diffFollowings (GetCurrentFollowings sampleStore 1) ["u1"]).1.length > 0
      ∨ (diffFollowings (GetCurrentFollowings sampleStore 1) ["u1"]).2.length > 0)
    ∧ ((ProcessFollowingChangesFailAfterEvents sampleStore 1 ["u1"] 0).events
        = sampleStore.events
          ++ (diffFollowings (GetCurrentFollowings sampleStore 1) ["u1"]).1.map
              (fun u => ⟨1, u, EventType.follow, 0⟩)
          ++ (diffFollowings (GetCurrentFollowings sampleStore 1) ["u1"]).2.map
              (fun u => ⟨1, u, EventType.unfollow, 0⟩)
      ∧ ¬(ProcessFollowingChangesFailAfterEvents sampleStore 1 ["u1"] 0).events
          = sampleStore.events
      ∧ (ProcessFollowingChangesFailAfterEvents sampleStore 1 ["u1"] 0).following
          = sampleStore.following) :=
  ⟨by decide,
   eventWrite_snapshotWrite_separate_transactions sampleStore 1 ["u1"] 0 (by decide)⟩

/-- C2: for all stored and fetched id lists, the change-detection step
satisfies set(added) = latest − current, set(removed) = current − latest,
added and removed are disjoint, and diffing a list against itself gives
the empty delta (empty inputs included, since both lists are universally
quantified). -/
theorem diffFollowings_spec (current latest : List String) :
    (∀ x, x ∈ (diffFollowings current latest).1 ↔ x ∈ latest ∧ x ∉ current)
    ∧ (∀ x, x ∈ (diffFollowings current latest).2 ↔ x ∈ current ∧ x ∉ latest)
    ∧ (∀ x, ¬(x ∈ (diffFollowings current latest).1
          ∧ x ∈ (diffFollowings current latest).2))
    ∧ diffFollowings current current = ([], []) := by
  refine ⟨fun x => mem_diffFollowings_fst, fun x => mem_diffFollowings_snd,
    fun x hx => ?_, diffFollowings_self current⟩
  exact (mem_diffFollowings_fst.mp hx.1).2 (mem_diffFollowings_snd.mp hx.2).1

/-- C3 is false on the code: with an empty store and a fetch returning
two ids, the add-account flow stores the snapshot (the new account's
snapshot is exactly the two fetched ids) but records zero Follow events;
the claim expects two events. -/
theorem handleAddAccountStore_records_no_events :
    (handleAddAccountStore ⟨[], [], []⟩ "alice" "42" ["u1", "u2"]).events.length = 0
    ∧ ¬(handleAddAccountStore ⟨[], [], []⟩ "alice" "42" ["u1", "u2"]).events.length = 2
    ∧ GetCurrentFollowings (handleAddAccountStore ⟨[], [], []⟩ "alice" "42" ["u1", "u2"]) 1
        = ["u1", "u2"] := by
  decide

/-- C3 (amended): the add-account initial fetch-and-store seeds the
snapshot directly through `StoreFollowings`: afterwards the new account's
snapshot is exactly the fetched set, while the event log is untouched (no
Follow events are recorded), and the path dispatches no notification of
either kind. -/
theorem handleAddAccountStore_spec (s : StoreState) (username userID : String)
    (ids : List String) :
    (handleAddAccountStore s username userID ids).events = s.events
    ∧ (∀ x, x ∈ GetCurrentFollowings (handleAddAccountStore s username userID ids)
          (nextAccountID s) ↔ x ∈ ids) :=
  ⟨rfl, fun _ => mem_storeFollowings⟩

/-- C4: after `StoreFollowings` (the snapshot-update write, which
recomputes the delta from the true stored state itself) the account's
snapshot is exactly the latest set L, for every prior store content; the
same holds through the full `ProcessFollowingChanges` write path. -/
theorem storeFollowings_converges (s : StoreState) (acc : Int) (L : List String)
    (now : Nat) :
    (∀ x, x ∈ GetCurrentFollowings (StoreFollowings s acc L) acc ↔ x ∈ L)
    ∧ (∀ x, x ∈ GetCurrentFollowings (ProcessFollowingChanges s acc L now) acc ↔ x ∈ L) :=
  ⟨fun _ => mem_storeFollowings, fun _ => mem_processFollowingChanges⟩

/-- C5 is false on the code: the pagination loop concatenates pages
without deduplicating. With two pages both containing id "a" (the second
one final), the client returns ["a", "a"], which is not duplicate-free,
while the deduplicated union would be the single id "a". -/
theorem getFollowingIDs_not_deduplicated :
    GetFollowingIDs [⟨["a"], 1, "c1"⟩, ⟨["a"], 0, ""⟩] = some ["a", "a"]
    ∧ ¬(["a", "a"] : List String).Nodup := by
  decide

/-- C5 (amended): the client paginates until the first page reporting a
continuation cursor of zero (pages after it are never requested) and
returns, in a single call, the concatenation of all fetched pages' ids.
Duplicates across pages are preserved, not removed; when pages are
pairwise disjoint the result is the union with size equal to the sum of
the page sizes. -/
theorem getFollowingIDs_spec (pre : List FollowingIDsResponse)
    (last : FollowingIDsResponse) (rest : List FollowingIDsResponse)
    (h1 : ∀ r ∈ pre, ¬r.nextCursor = 0) (h2 : last.nextCursor = 0) :
    GetFollowingIDs (pre ++ last :: rest)
      = some (((pre ++ [last]).map (fun r => r.ids)).flatten) := by
  have h := getFollowingIDsLoop_spec pre last rest [] h1 h2
  unfold GetFollowingIDs
  rw [h]
  simp

/-- Witness for C5 (amended): three pages of sizes 2, 2 and 1 with
pairwise distinct ids yield all five ids in a single call. -/
theorem getFollowingIDs_spec_witness :
    GetFollowingIDs [⟨["a", "b"], 1, "c1"⟩, ⟨["c", "d"], 2, "c2"⟩, ⟨["e"], 0, ""⟩]
      = some ["a", "b", "c", "d", "e"] := by
  have h := getFollowingIDs_spec
      [⟨["a", "b"], 1, "c1"⟩, ⟨["c", "d"], 2, "c2"⟩] ⟨["e"], 0, ""⟩ []
      (by decide) (by decide)
  simpa using h

/-- C6: when the fetched set equals the stored snapshot (empty delta) the
reconciliation step records no events, leaves the snapshot untouched and
dispatches no notification; and applying the same fetched list twice in a
row makes the second `ProcessFollowingChanges` application the identity
(zero new events). -/
theorem reconciliation_noop_and_idempotent (cfg : CheckConfig)
    (fetch : String → Option (List String)) (evFail folFail : Int → Bool)
    (s : StoreState) (ns : List Notification) (acc : WatchedAccount)
    (ids : List String) (now now' : Nat)
    (hf : fetch acc.userID = some ids)
    (hye : evFail acc.id = false) (hyf : folFail acc.id = false) :
    ProcessFollowingChanges (ProcessFollowingChanges s acc.id ids now) acc.id ids now'
        = ProcessFollowingChanges s acc.id ids now
    ∧ (diffFollowings (GetCurrentFollowings s acc.id) ids = ([], []) →
        ProcessFollowingChanges s acc.id ids now = s
        ∧ checkAccount cfg fetch evFail folFail now (s, ns) acc = (s, ns)) := by
  refine ⟨processFollowingChanges_idem s acc.id ids now now',
    fun hd => ⟨processFollowingChanges_noop s acc.id ids now hd, ?_⟩⟩
  rw [checkAccount_success cfg fetch evFail folFail now s ns acc ids hf hye hyf,
    processFollowingChanges_noop s acc.id ids now hd, hd]
  simp [checkNotifs]

/-- Witness for C6: account 1 with snapshot already equal to the fetched
list — the step is a no-op and dispatches nothing, and re-applying the
list is the identity. -/
theorem reconciliation_noop_and_idempotent_witness :
    (ProcessFollowingChanges (ProcessFollowingChanges seededStore 1 ["u1"] 0) 1 ["u1"] 1
        = ProcessFollowingChanges seededStore 1 ["u1"] 0)
    ∧ ProcessFollowingChanges seededStore 1 ["u1"] 0 = seededStore
    ∧ checkAccount allOnConfig sampleFetch noFailure noFailure 0 (seededStore, []) acct1
        = (seededStore, []) := by
  have h := reconciliation_noop_and_idempotent allOnConfig sampleFetch
      noFailure noFailure seededStore [] acct1 ["u1"] 0 1 (by decide) rfl rfl
  exact ⟨h.1, (h.2 (by decide)).1, (h.2 (by decide)).2⟩

/-- C7 is false on the code: `RemoveWatchedAccount` performs no existence
check — removing id 1 from a store that only contains account 2 returns
success with the store unchanged, instead of failing with NotFound. -/
theorem removeWatchedAccount_no_notFound :
    RemoveWatchedAccount ⟨[⟨2, "bob", "7"⟩], [(2, "u1")], []⟩ 1
      = .ok ⟨[⟨2, "bob", "7"⟩], [(2, "u1")], []⟩ := by
  rfl

/-- C7 (amended): `RemoveWatchedAccount` never fails (in particular it
never returns NotFound for an absent id); on every input it succeeds and,
in one transaction, removes exactly the rows of the given account: the
remaining accounts are those with a different id, the remaining following
rows are those of other accounts (so the removed account's snapshot reads
back empty), and the event log is untouched. -/
theorem removeWatchedAccount_spec (s : StoreState) (id : Int) :
    ∃ s' : StoreState, RemoveWatchedAccount s id = .ok s'
      ∧ (∀ acc : WatchedAccount, acc ∈ s'.accounts ↔ acc ∈ s.accounts ∧ ¬acc.id = id)
      ∧ (∀ p : Int × String, p ∈ s'.following ↔ p ∈ s.following ∧ ¬p.1 = id)
      ∧ s'.events = s.events
      ∧ GetCurrentFollowings s' id = [] := by
  refine ⟨_, rfl, fun acc => ?_, fun p => ?_, rfl, ?_⟩
  · simp [List.mem_filter]
  · simp [List.mem_filter]
  · show ((s.following.filter _).filter _).map _ = []
    have hnil : (s.following.filter (fun p => ¬p.1 = id)).filter
        (fun p => p.1 = id) = [] := by
      simp only [List.filter_eq_nil_iff, List.mem_filter, decide_eq_true_eq]
      rintro p ⟨_, hp⟩
      exact hp
    rw [hnil]
    rfl

/-- C8: in a reconciliation cycle over accounts X then Y in which X's
step fails (upstream fetch error, or an injected failure of its event or
snapshot transaction) while Y's step does not, Y is still fetched,
diffed, persisted and notified exactly as in a cycle over Y alone: the
resulting following table and the dispatched notifications coincide with
the Y-only cycle's, Y's snapshot converges to its fetched list L, and the
cycle's notifications are exactly the gated ones for Y's delta. -/
theorem checkAccounts_isolation (cfg : CheckConfig)
    (fetch : String → Option (List String)) (evFail folFail : Int → Bool)
    (now : Nat) (s : StoreState) (X Y : WatchedAccount) (L : List String)
    (hx : fetch X.userID = none ∨ evFail X.id = true ∨ folFail X.id = true)
    (hy : fetch Y.userID = some L)
    (hye : evFail Y.id = false) (hyf : folFail Y.id = false) :
    (CheckAccounts cfg fetch evFail folFail now s [X, Y]).1.following
        = (CheckAccounts cfg fetch evFail folFail now s [Y]).1.following
    ∧ (CheckAccounts cfg fetch evFail folFail now s [X, Y]).2
        = (CheckAccounts cfg fetch evFail folFail now s [Y]).2
    ∧ (GetCurrentFollowings
          (CheckAccounts cfg fetch evFail folFail now s [X, Y]).1 Y.id).toFinset
        = L.toFinset
    ∧ (CheckAccounts cfg fetch evFail folFail now s [X, Y]).2
        = checkNotifs cfg Y.id (diffFollowings (GetCurrentFollowings s Y.id) L) := by
  obtain ⟨hXfol, hXns⟩ := checkAccount_fail cfg fetch evFail folFail now (s, []) X hx
  have hpair : checkAccount cfg fetch evFail folFail now (s, []) X
      = ((checkAccount cfg fetch evFail folFail now (s, []) X).1, []) :=
    Prod.ext rfl hXns
  have hXY : CheckAccounts cfg fetch evFail folFail now s [X, Y]
      = checkAccount cfg fetch evFail folFail now
          ((checkAccount cfg fetch evFail folFail now (s, []) X).1, []) Y := by
    show checkAccount cfg fetch evFail folFail now
        (checkAccount cfg fetch evFail folFail now (s, []) X) Y = _
    conv_lhs => rw [hpair]
  have hYstep := checkAccount_success cfg fetch evFail folFail now
      (checkAccount cfg fetch evFail folFail now (s, []) X).1 [] Y L hy hye hyf
  have hYonly : CheckAccounts cfg fetch evFail folFail now s [Y]
      = (ProcessFollowingChanges s Y.id L now,
         [] ++ checkNotifs cfg Y.id (diffFollowings (GetCurrentFollowings s Y.id) L)) :=
    checkAccount_success cfg fetch evFail folFail now s [] Y L hy hye hyf
  have hgcf : GetCurrentFollowings
      (checkAccount cfg fetch evFail folFail now (s, []) X).1 Y.id
      = GetCurrentFollowings s Y.id := getCurrentFollowings_congr hXfol Y.id
  refine ⟨?_, ?_, ?_, ?_⟩
  · rw [hXY, hYstep, hYonly]
    exact processFollowingChanges_following_congr hXfol Y.id L now
  · rw [hXY, hYstep, hYonly, hgcf]
  · rw [hXY, hYstep]
    ext x
    simp only [List.mem_toFinset]
    exact mem_processFollowingChanges
  · rw [hXY, hYstep, hgcf]
    exact List.nil_append _

/-- Witness for C8: X's fetch fails, Y's returns one id; Y converges and
the cycle's only notification is Y's follow notification. -/
theorem checkAccounts_isolation_witness :
    (CheckAccounts allOnConfig isolationFetch noFailure noFailure 0
          twoAccountStore [xAcct, yAcct]).1.following
        = (CheckAccounts allOnConfig isolationFetch noFailure noFailure 0
            twoAccountStore [yAcct]).1.following
    ∧ (CheckAccounts allOnConfig isolationFetch noFailure noFailure 0
          twoAccountStore [xAcct, yAcct]).2
        = (CheckAccounts allOnConfig isolationFetch noFailure noFailure 0
            twoAccountStore [yAcct]).2
    ∧ (GetCurrentFollowings
          (CheckAccounts allOnConfig isolationFetch noFailure noFailure 0
            twoAccountStore [xAcct, yAcct]).1 yAcct.id).toFinset
        = (["u1"] : List String).toFinset
    ∧ (CheckAccounts allOnConfig isolationFetch noFailure noFailure 0
          twoAccountStore [xAcct, yAcct]).2
        = checkNotifs allOnConfig yAcct.id
            (diffFollowings (GetCurrentFollowings twoAccountStore yAcct.id) ["u1"]) :=
  checkAccounts_isolation allOnConfig isolationFetch noFailure noFailure 0
    twoAccountStore xAcct yAcct ["u1"] (Or.inl (by decide)) (by decide) rfl rfl

/-- C9: the channels attempted by the notification manager's follow
dispatch depend only on the configuration, never on any send outcome: a
failed send on one channel does not prevent the attempt on the other,
and the dispatcher (whose Go method has no error return) propagates no
error — its result is the same attempt list for every outcome oracle. -/
theorem notifyNewFollows_channels_independent (m : NotificationManager)
    (sendOk sendOk' : Channel → Bool) :
    (NotifyNewFollows m sendOk).map Prod.fst
        = (NotifyNewFollows m sendOk').map Prod.fst
    ∧ (NotifyNewFollows m sendOk).map Prod.fst
        = (if m.enableDiscord ∧ m.hasDiscord then [Channel.discord] else [])
          ++ (if m.enableTelegram ∧ m.hasTelegram then [Channel.telegram] else [])
    ∧ (NotifyUnfollows m sendOk).map Prod.fst
        = (NotifyUnfollows m sendOk').map Prod.fst
    ∧ (NotifyUnfollows m sendOk).map Prod.fst
        = (if m.enableDiscord ∧ m.hasDiscord then [Channel.discord] else [])
          ++ (if m.enableTelegram ∧ m.hasTelegram then [Channel.telegram] else []) := by
  unfold NotifyNewFollows NotifyUnfollows
  refine ⟨?_, ?_, ?_, ?_⟩ <;>
    · by_cases h1 : m.enableDiscord = true ∧ m.hasDiscord = true <;>
        by_cases h2 : m.enableTelegram = true ∧ m.hasTelegram = true <;>
        simp [h1, h2]

/-- C10: `StoreFollowings` for one account modifies only that account's
following rows: the watched-accounts table and the event log are
unchanged, and every other account's snapshot reads back unchanged. -/
theorem storeFollowings_frame (s : StoreState) (a : Int) (ids : List String)
    (b : Int) (h : ¬b = a) :
    (StoreFollowings s a ids).accounts = s.accounts
    ∧ (StoreFollowings s a ids).events = s.events
    ∧ GetCurrentFollowings (StoreFollowings s a ids) b = GetCurrentFollowings s b :=
  ⟨rfl, rfl, getCurrentFollowings_storeFollowings_ne s a ids b h⟩

/-- Witness for C10: updating account 1's snapshot leaves account 2's
snapshot, the accounts table and the event log unchanged. -/
theorem storeFollowings_frame_witness :
    (StoreFollowings frameStore 1 ["u3"]).accounts = frameStore.accounts
    ∧ (StoreFollowings frameStore 1 ["u3"]).events = frameStore.events
    ∧ GetCurrentFollowings (StoreFollowings frameStore 1 ["u3"]) 2
        = GetCurrentFollowings frameStore 2 :=
  storeFollowings_frame frameStore 1 ["u3"] 2 (by decide)
